import Mathlib

/-!
Verification of the Janggi rule engine, position codec, engine protocol
adapter and match state machine.  The definitions below are a shallow
embedding of the TypeScript source (types.ts, janggiLogic.ts, App.tsx):
JavaScript arrays become lists indexed by integers, an access whose row
index is out of range models the runtime TypeError of indexing into
undefined as an Except error, and React state updates become pure record
updates.
-/

deriving instance DecidableEq for Except

/-- The two sides: r = Red (Han), b = Blue (Cho). -/
inductive Team : Type
  | r
  | b
deriving DecidableEq

/-- The seven piece kinds of the variant. -/
inductive PieceType : Type
  | cha
  | ma
  | sang
  | po
  | sa
  | jang
  | jol
deriving DecidableEq

/-- A piece is a kind together with the side owning it. -/
structure Piece : Type where
  type : PieceType
  team : Team
deriving DecidableEq

/-- The board: 10 rows of 9 cells, each cell an optional piece. -/
abbrev Board := List (List (Option Piece))

/-- The four named home-rank arrangements. -/
inductive SetupType : Type
  | wan
  | oreun
  | an
  | bak
deriving DecidableEq

/-- The four game modes of App.tsx. -/
inductive GameMode : Type
  | PvP
  | CvC
  | PvC
  | CvP
deriving DecidableEq

/-- JavaScript array read: an index outside 0..length-1 yields undefined,
modelled as none. -/
def jget (l : List α) (i : Int) : Option α :=
  if h : 0 ≤ i ∧ i.toNat < l.length then some (l.get ⟨i.toNat, h.2⟩) else none

/-- JavaScript in-range array write; out-of-range writes do not occur on the
paths the claims exercise, so they leave the list unchanged here. -/
def jset (l : List α) (i : Int) (a : α) : List α :=
  if 0 ≤ i ∧ i.toNat < l.length then l.set i.toNat a else l

/-- Total cell read: a missing row or column reads as an empty cell.  This is
the value the source observes whenever the row index is in range (null and
undefined are both falsy). -/
def cellAt (b : Board) (r c : Int) : Option Piece :=
  match jget b r with
  | none => none
  | some row => (jget row c).join

/-- Faithful cell read: when the row index is out of range the source
evaluates undefined[c], a TypeError, modelled as an error. -/
def cellE (b : Board) (r c : Int) : Except Unit (Option Piece) :=
  match jget b r with
  | none => .error ()
  | some row => .ok ((jget row c).join)

/-- Write a cell of the board (used by initBoard and executeMove). -/
def boardSet (b : Board) (r c : Int) (v : Option Piece) : Board :=
  match jget b r with
  | none => b
  | some row => jset b r (jset row c v)

/-- The all-empty 10 by 9 board. -/
def emptyBoard : Board := List.replicate 10 (List.replicate 9 none)

/-- Place the back rank of one side: cha on both edge files, the four inner
pieces chosen by the named setup (janggiLogic.ts setupHomeRank). -/
def setupHomeRank (b : Board) (row : Int) (team : Team) (setup : SetupType) : Board :=
  let inner : PieceType × PieceType × PieceType × PieceType :=
    match setup with
    | .wan => (.ma, .sang, .ma, .sang)
    | .oreun => (.sang, .ma, .sang, .ma)
    | .an => (.ma, .sang, .sang, .ma)
    | .bak => (.sang, .ma, .ma, .sang)
  let b := boardSet b row 0 (some ⟨.cha, team⟩)
  let b := boardSet b row 8 (some ⟨.cha, team⟩)
  let b := boardSet b row 1 (some ⟨inner.1, team⟩)
  let b := boardSet b row 2 (some ⟨inner.2.1, team⟩)
  let b := boardSet b row 6 (some ⟨inner.2.2.1, team⟩)
  boardSet b row 7 (some ⟨inner.2.2.2, team⟩)

/-- Initial board construction (janggiLogic.ts initBoard): pawns on rows 3
and 6, cannons, generals and guards at fixed spots, then both home ranks. -/
def initBoard (redSetup blueSetup : SetupType) : Board :=
  let b := emptyBoard
  let b := [0, 2, 4, 6, 8].foldl
    (fun b c => boardSet (boardSet b 3 c (some ⟨.jol, .b⟩)) 6 c (some ⟨.jol, .r⟩)) b
  let b := boardSet b 2 1 (some ⟨.po, .b⟩)
  let b := boardSet b 2 7 (some ⟨.po, .b⟩)
  let b := boardSet b 7 1 (some ⟨.po, .r⟩)
  let b := boardSet b 7 7 (some ⟨.po, .r⟩)
  let b := boardSet b 1 4 (some ⟨.jang, .b⟩)
  let b := boardSet b 0 3 (some ⟨.sa, .b⟩)
  let b := boardSet b 0 5 (some ⟨.sa, .b⟩)
  let b := boardSet b 8 4 (some ⟨.jang, .r⟩)
  let b := boardSet b 9 3 (some ⟨.sa, .r⟩)
  let b := boardSet b 9 5 (some ⟨.sa, .r⟩)
  let b := setupHomeRank b 0 .b blueSetup
  setupHomeRank b 9 .r redSetup

/-- Math.sign. -/
def sgn (d : Int) : Int := if 0 < d then 1 else if d < 0 then -1 else 0

/-- The while loop inside countObstacles: step one unit vector at a time from
the cell after the source until the destination is reached, counting occupied
cells.  The fuel is the exact number of steps the source loop performs on the
aligned inputs it is called with; on other inputs the source loop runs until
an out-of-range row faults, modelled by exhausting the fuel into an error. -/
def obstacleLoop (b : Board) (ey ex dy dx : Int) : Int → Int → Nat → Except Unit Nat
  | r, c, fuel =>
    if r = ey ∧ c = ex then .ok 0
    else
      match fuel with
      | 0 => .error ()
      | fuel2 + 1 =>
        (cellE b r c).bind fun cell =>
          (obstacleLoop b ey ex dy dx (r + dy) (c + dx) fuel2).bind fun rest =>
            .ok ((if cell.isSome then 1 else 0) + rest)

/-- janggiLogic.ts countObstacles. -/
def countObstaclesE (b : Board) (start en : Int × Int) : Except Unit Nat :=
  let dy := sgn (en.1 - start.1)
  let dx := sgn (en.2 - start.2)
  obstacleLoop b en.1 en.2 dy dx (start.1 + dy) (start.2 + dx)
    (max (en.1 - start.1).natAbs (en.2 - start.2).natAbs)

/-- janggiLogic.ts hasObstacle. -/
def hasObstacleE (b : Board) (start en : Int × Int) : Except Unit Bool :=
  (countObstaclesE b start en).map fun n => decide (0 < n)

/-- The palace test of isValidMove: columns 3..5, rows 0..2 for Blue and
7..9 for Red. -/
def inPalace (r c : Int) (team : Team) : Prop :=
  3 ≤ c ∧ c ≤ 5 ∧ (match team with
    | Team.b => 0 ≤ r ∧ r ≤ 2
    | Team.r => 7 ≤ r ∧ r ≤ 9)

instance (r c : Int) (team : Team) : Decidable (inPalace r c team) := by
  unfold inPalace
  cases team <;> exact inferInstance

/-- janggiLogic.ts isValidMove, the legality predicate of the Rule Engine. -/
def isValidMove (board : Board) (start en : Int × Int) (turn : Team) : Except Unit Bool :=
  let sy := start.1
  let sx := start.2
  let ey := en.1
  let ex := en.2
  if sy = ey ∧ sx = ex then .ok false else
  (cellE board sy sx).bind fun pieceOpt =>
  match pieceOpt with
  | none => .ok false
  | some piece =>
    if piece.team ≠ turn then .ok false else
    (cellE board ey ex).bind fun target =>
    if target.any (fun t => decide (t.team = piece.team)) then .ok false else
    let dy := ey - sy
    let dx := ex - sx
    let absDy := dy.natAbs
    let absDx := dx.natAbs
    let chaDiag : Except Unit Bool :=
      if inPalace sy sx piece.team ∧ inPalace ey ex piece.team ∧ absDx = absDy then
        (hasObstacleE board start en).bind fun h2 => .ok (!h2)
      else .ok false
    let guardBody : Except Unit Bool :=
      if ¬ inPalace ey ex piece.team then .ok false
      else if absDx + absDy = 1 then .ok true
      else if absDx = 1 ∧ absDy = 1 then
        .ok (decide ((sy = 1 ∧ sx = 4) ∨ (sy = 8 ∧ sx = 4) ∨ (ey = 1 ∧ ex = 4) ∨ (ey = 8 ∧ ex = 4)))
      else .ok false
    match piece.type with
    | .cha =>
      if sx = ex ∨ sy = ey then
        (hasObstacleE board start en).bind fun h1 => if h1 then chaDiag else .ok true
      else chaDiag
    | .jol =>
      if 1 < absDx + absDy then
        if inPalace sy sx piece.team ∧ inPalace ey ex piece.team ∧ absDx = 1 ∧ absDy = 1 then
          if piece.team = .b ∧ 0 < dy then .ok true
          else if piece.team = .r ∧ dy < 0 then .ok true
          else .ok false
        else .ok false
      else
        if piece.team = .b ∧ dy < 0 then .ok false
        else if piece.team = .r ∧ 0 < dy then .ok false
        else .ok true
    | .ma =>
      if absDx = 1 ∧ absDy = 2 then
        (cellE board (sy + dy / 2) sx).bind fun cell => .ok cell.isNone
      else if absDx = 2 ∧ absDy = 1 then
        (cellE board sy (sx + dx / 2)).bind fun cell => .ok cell.isNone
      else .ok false
    | .sang =>
      if absDx = 2 ∧ absDy = 3 then
        (cellE board (sy + dy / 3) sx).bind fun c1 =>
        (cellE board (sy + dy / 3 * 2) (sx + dx / 2)).bind fun c2 =>
        .ok (c1.isNone && c2.isNone)
      else if absDx = 3 ∧ absDy = 2 then
        (cellE board sy (sx + dx / 3)).bind fun c1 =>
        (cellE board (sy + dy / 2) (sx + dx / 3 * 2)).bind fun c2 =>
        .ok (c1.isNone && c2.isNone)
      else .ok false
    | .sa => guardBody
    | .jang => guardBody
    | .po =>
      if target.any (fun t => decide (t.type = .po)) then .ok false
      else if sx = ex ∨ sy = ey then
        (countObstaclesE board start en).bind fun n => .ok (decide (n = 1))
      else if inPalace sy sx piece.team ∧ inPalace ey ex piece.team ∧ absDx = absDy then
        (countObstaclesE board start en).bind fun n => .ok (decide (n = 1))
      else .ok false

/-- Per-kind FEN letter: uppercase for Red (Han), lowercase for Blue (Cho). -/
def fenChar (p : Piece) : String :=
  match p.team, p.type with
  | .r, .cha => "R"
  | .r, .ma => "N"
  | .r, .sang => "E"
  | .r, .po => "C"
  | .r, .sa => "A"
  | .r, .jang => "K"
  | .r, .jol => "P"
  | .b, .cha => "r"
  | .b, .ma => "n"
  | .b, .sang => "e"
  | .b, .po => "c"
  | .b, .sa => "a"
  | .b, .jang => "k"
  | .b, .jol => "p"

/-- One rank string of generateFen: run-length-encode empties, one letter per
piece. -/
def rowFen (row : List (Option Piece)) : String :=
  let res := row.foldl
    (fun (acc : String × Nat) cell =>
      match cell with
      | some piece =>
        ((acc.1 ++ (if 0 < acc.2 then toString acc.2 else "")) ++ fenChar piece, 0)
      | none => (acc.1, acc.2 + 1))
    ("", 0)
  res.1 ++ (if 0 < res.2 then toString res.2 else "")

/-- janggiLogic.ts generateFen: rank strings joined by slashes, the side
marker, two placeholder fields and the fixed move counts. -/
def generateFen (b : Board) (turn : Team) : String :=
  let turnChar := match turn with
    | Team.b => "b"
    | Team.r => "w"
  ((String.intercalate "/" (b.map rowFen) ++ " ") ++ turnChar) ++ " - - 0 1"

/-- The colMap object of applyEngineMove: file letters a..i to columns 0..8,
anything else to undefined. -/
def colMap (c : Char) : Option Int :=
  match c with
  | 'a' => some 0
  | 'b' => some 1
  | 'c' => some 2
  | 'd' => some 3
  | 'e' => some 4
  | 'f' => some 5
  | 'g' => some 6
  | 'h' => some 7
  | 'i' => some 8
  | _ => none

/-- parseInt applied to one character of the token: an ASCII digit parses,
anything else (including a missing character) is NaN, modelled as none. -/
def digitVal (c : Char) : Option Int :=
  if '0' ≤ c ∧ c ≤ '9' then some ((c.toNat : Int) - 48) else none

/-- The move-token decoder inside applyEngineMove: characters 0..3 of the
token give source column, source rank, destination column, destination rank;
internal row is 9 minus the rank digit; any NaN aborts the decode. -/
def decodeMove (moveStr : String) : Option ((Int × Int) × (Int × Int)) :=
  let cs := moveStr.toList
  match (cs.get? 0).bind colMap, (cs.get? 1).bind digitVal,
        (cs.get? 2).bind colMap, (cs.get? 3).bind digitVal with
  | some sc, some d1, some ec, some d2 => some (((9 - d1, sc)), ((9 - d2, ec)))
  | _, _, _, _ => none

/-- Flip the side to move. -/
def Team.other : Team → Team
  | Team.b => Team.r
  | Team.r => Team.b

/-- A history record (types.ts MoveRecord); moveText carries the source's
move-log string field. -/
structure MoveRecord : Type where
  seq : Nat
  moveText : String
  turn : Team
  prevBoard : Board
deriving DecidableEq

/-- The React state of App.tsx that the claims touch: board, side to move,
history, selection, game flags, engine settings, the in-flight flag
isEngineThinking, and a ghost counter pending of search requests sent but not
yet answered by a bestmove line. -/
structure AppState : Type where
  board : Board
  turn : Team
  gameStarted : Bool
  redSetup : SetupType
  blueSetup : SetupType
  gameMode : GameMode
  history : List MoveRecord
  selected : Option (Int × Int)
  legalMoves : List (Int × Int)
  engineEnabled : Bool
  timeControl : Int
  thinking : Bool
  pending : Nat
deriving DecidableEq

/-- App.tsx executeMove: snapshot the pre-move board into a new history
record, relocate the piece (the destination occupant is discarded), clear the
selection, flip the side, and - when the engine is enabled - send a position
line for the new board plus a search command.  The returned list is the
commands sent; pending counts the search request when one is sent. -/
def executeMove (s : AppState) (start en : Int × Int) : AppState × List String :=
  let sr := start.1
  let sc := start.2
  let er := en.1
  let ec := en.2
  let prevBoard := s.board
  let piece := cellAt s.board sr sc
  let newBoard := boardSet (boardSet s.board er ec piece) sr sc none
  let moveText := (((toString sr ++ ",") ++ toString sc ++ " > ") ++ toString er ++ ",") ++ toString ec
  let rec1 : MoveRecord := ⟨s.history.length + 1, moveText, s.turn, prevBoard⟩
  let nextTurn := s.turn.other
  let s2 := { s with
    board := newBoard
    selected := none
    legalMoves := []
    history := s.history ++ [rec1]
    turn := nextTurn
    pending := s.pending + (if s.engineEnabled then 1 else 0) }
  let cmds := if s.engineEnabled then
      ["position fen " ++ generateFen newBoard nextTurn,
       "go movetime " ++ toString (s.timeControl * 1000)]
    else []
  (s2, cmds)

/-- App.tsx undoMove: a no-op on empty history, otherwise restore the last
record's board snapshot and recorded side and drop the record. -/
def undoMove (s : AppState) : AppState :=
  match s.history.getLast? with
  | none => s
  | some lastMove =>
    { s with
      board := lastMove.prevBoard
      history := s.history.dropLast
      turn := lastMove.turn
      selected := none
      legalMoves := [] }

/-- App.tsx passTurn: record a PASS entry with the current board snapshot and
flip the side without touching the board. -/
def passTurn (s : AppState) : AppState :=
  { s with
    history := s.history ++ [⟨s.history.length + 1, "PASS", s.turn, s.board⟩]
    turn := s.turn.other }

/-- App.tsx resign: only the started flag is cleared (the alert is UI). -/
def resign (s : AppState) : AppState :=
  { s with gameStarted := false }

/-- App.tsx startGame: fresh board from the chosen setups, Blue to move,
history cleared, selection cleared, in-flight flag cleared. -/
def startGame (s : AppState) : AppState :=
  { s with
    board := initBoard s.redSetup s.blueSetup
    turn := Team.b
    history := []
    gameStarted := true
    selected := none
    legalMoves := []
    thinking := false }

/-- App.tsx requestEngineMove: set the in-flight flag and send the position
line and the search command. -/
def requestEngineMove (s : AppState) : AppState × List String :=
  ({ s with
      thinking := true
      pending := s.pending + 1 },
   ["position fen " ++ generateFen s.board s.turn,
    "go movetime " ++ toString (s.timeControl * 1000)])

/-- App.tsx checkEngineMove: do nothing unless the engine is enabled, a game
is running and no request is in flight; then request a move when the mode
says it is the engine's turn. -/
def checkEngineMove (s : AppState) : AppState × List String :=
  if s.engineEnabled = false ∨ s.gameStarted = false ∨ s.thinking = true then (s, [])
  else if s.gameMode = .CvC ∨ (s.gameMode = .PvC ∧ s.turn = .r)
      ∨ (s.gameMode = .CvP ∧ s.turn = .b) then
    requestEngineMove s
  else (s, [])

/-- The per-piece legal-destination scan run on selection: all 90 cells are
tested through the legality predicate. -/
def legalMovesFor (b : Board) (src : Int × Int) (turn : Team) : List (Int × Int) :=
  ((List.range 10).map fun tr =>
    (List.range 9).filterMap fun tc =>
      if isValidMove b src ((tr : Int), (tc : Int)) turn = .ok true
      then some ((tr : Int), (tc : Int)) else none).flatten

/-- App.tsx handleSquareClick: ignore clicks when no game is running or when
the mode says it is the engine's turn; otherwise select a piece, switch or
clear the selection, or attempt the move through the legality predicate. -/
def handleSquareClick (s : AppState) (r c : Int) : AppState × List String :=
  if s.gameStarted = false then (s, [])
  else if s.engineEnabled = true ∧ s.gameMode ≠ .PvP ∧
      (s.gameMode = .CvC ∨ (s.gameMode = .PvC ∧ s.turn = .r)
        ∨ (s.gameMode = .CvP ∧ s.turn = .b)) then (s, [])
  else
    match s.selected with
    | none =>
      match cellAt s.board r c with
      | some piece =>
        if piece.team = s.turn then
          ({ s with
             selected := some (r, c)
             legalMoves := legalMovesFor s.board (r, c) s.turn }, [])
        else (s, [])
      | none => (s, [])
    | some sel =>
      let sr := sel.1
      let sc := sel.2
      if sr = r ∧ sc = c then ({ s with selected := none, legalMoves := [] }, [])
      else
        match cellAt s.board sr sc with
        | some piece =>
          let attempt : AppState × List String :=
            if isValidMove s.board (sr, sc) (r, c) s.turn = .ok true
            then executeMove s (sr, sc) (r, c)
            else ({ s with selected := none, legalMoves := [] }, [])
          match cellAt s.board r c with
          | some target =>
            if target.team = piece.team then
              ({ s with
                 selected := some (r, c)
                 legalMoves := legalMovesFor s.board (r, c) s.turn }, [])
            else attempt
          | none => attempt
        | none => (s, [])

/-- App.tsx applyEngineMove: decode the token and execute the move; a failed
decode only clears the in-flight flag. -/
def applyEngineMove (s : AppState) (moveStr : String) : AppState × List String :=
  match decodeMove moveStr with
  | some mv => executeMove s mv.1 mv.2
  | none => ({ s with thinking := false }, [])

/-- One splitting pass of JavaScript String.split with a one-character
separator: consecutive separators and boundary separators produce empty
fields. -/
def splitCharAux (sep : Char) : List Char → List (List Char)
  | [] => [[]]
  | c :: rest =>
    match splitCharAux sep rest with
    | [] => [[]]
    | t :: ts => if c = sep then [] :: t :: ts else (c :: t) :: ts

/-- JavaScript String.split with a one-character separator. -/
def jsSplit (s : String) (sep : Char) : List String :=
  (splitCharAux sep s.toList).map fun cs => String.mk cs

/-- JavaScript String.startsWith as a character-list prefix test. -/
def jsStartsWith (s pre : String) : Bool := pre.toList.isPrefixOf s.toList

/-- The bestmove branch of the engine-output handler in App.tsx: on any line
starting with the bestmove marker, clear the in-flight flag (the ghost
pending counter records the answered request), take the second
space-separated field and, when it is present, nonempty and not the (none)
sentinel, apply it; other lines leave the state the claims touch unchanged
(the score branches only update a display string). -/
def onEngineLine (s : AppState) (line : String) : AppState × List String :=
  if jsStartsWith line "bestmove" then
    let s1 := { s with
      thinking := false
      pending := s.pending - 1 }
    match (jsSplit line ' ').get? 1 with
    | some moveStr =>
      if moveStr ≠ "" ∧ moveStr ≠ "(none)" then applyEngineMove s1 moveStr
      else (s1, [])
    | none => (s1, [])
  else (s, [])

/-- Specification-side screen count: the number of occupied cells strictly
between source and destination along the unit-step line joining them. -/
def betweenCount (b : Board) (sy sx ey ex : Int) : Nat :=
  let dy := sgn (ey - sy)
  let dx := sgn (ex - sx)
  let M := max (ey - sy).natAbs (ex - sx).natAbs
  (List.range (M - 1)).countP fun k : Nat =>
    (cellAt b (sy + ((k : Int) + 1) * dy) (sx + ((k : Int) + 1) * dx)).isSome

/-- The horse's leg cell as the specification words it: the single
intermediate cell adjacent to the start along the longer displacement
axis. -/
def maLegCell (sy sx ey ex : Int) : Int × Int :=
  if (ey - sy).natAbs = 2 then (sy + sgn (ey - sy), sx) else (sy, sx + sgn (ex - sx))

/-- The elephant's two checked cells with the first one step from the source
along the LONG displacement axis and the second its diagonal continuation
toward the destination (this is what the code checks). -/
def sangLongAxisCells (sy sx ey ex : Int) : (Int × Int) × (Int × Int) :=
  let dy := ey - sy
  let dx := ex - sx
  if dx.natAbs < dy.natAbs then
    ((sy + sgn dy, sx), (sy + 2 * sgn dy, sx + sgn dx))
  else
    ((sy, sx + sgn dx), (sy + sgn dy, sx + 2 * sgn dx))

/-- Modelled from the claim wording of C8: the first intermediate cell one
step from the source along the SHORT axis of the displacement, the second its
diagonal continuation toward the destination. -/
def sangShortAxisCells (sy sx ey ex : Int) : (Int × Int) × (Int × Int) :=
  let dy := ey - sy
  let dx := ex - sx
  if dy.natAbs < dx.natAbs then
    ((sy + sgn dy, sx), (sy + 2 * sgn dy, sx + sgn dx))
  else
    ((sy, sx + sgn dx), (sy + sgn dy, sx + 2 * sgn dx))

/-- A concrete pre-game state: analysis (PvP) mode, engine enabled, default
six-second time control. -/
def baseState : AppState :=
  { board := []
    turn := Team.b
    gameStarted := false
    redSetup := SetupType.an
    blueSetup := SetupType.an
    gameMode := GameMode.PvP
    history := []
    selected := none
    legalMoves := []
    engineEnabled := true
    timeControl := 6
    thinking := false
    pending := 0 }

/-- The state right after pressing Start New Game from baseState. -/
def startedState : AppState := startGame baseState

/-- Red cannon at (7,1) whose only screen toward (2,1) is the Blue cannon at
(5,1). -/
def poScreenBoard : Board :=
  boardSet (boardSet emptyBoard 7 1 (some ⟨PieceType.po, Team.r⟩)) 5 1
    (some ⟨PieceType.po, Team.b⟩)

/-- Red cannon at (7,1) with a single non-cannon screen at (5,1). -/
def poHorseScreenBoard : Board :=
  boardSet (boardSet emptyBoard 7 1 (some ⟨PieceType.po, Team.r⟩)) 5 1
    (some ⟨PieceType.ma, Team.b⟩)

/-- Blue elephant at (0,0) and a piece on (1,0), the cell one step along the
SHORT axis of the (2,3) displacement to (2,3); the cells the code checks,
(0,1) and (1,2), are empty. -/
def sangBlockBoard : Board :=
  boardSet (boardSet emptyBoard 0 0 (some ⟨PieceType.sang, Team.b⟩)) 1 0
    (some ⟨PieceType.jol, Team.r⟩)

/-- Red rook on its home corner (9,0) with a clear ninth row. -/
def chaEdgeBoard : Board :=
  boardSet (boardSet emptyBoard 9 0 (some ⟨PieceType.cha, Team.r⟩)) 8 4
    (some ⟨PieceType.jang, Team.r⟩)

/-- startedState after Blue selects the soldier on (3,0). -/
def clickState1 : AppState := (handleSquareClick startedState 3 0).1

/-- clickState1 after Blue plays (3,0) to (4,0); the analysis send has gone
out, so one search request is outstanding. -/
def clickState2 : AppState := (handleSquareClick clickState1 4 0).1

/-- clickState2 after Red selects the soldier on (6,0). -/
def clickState3 : AppState := (handleSquareClick clickState2 6 0).1

theorem okBind {α β : Type} (a : α) (f : α → Except Unit β) :
    (Except.ok a : Except Unit α).bind f = f a := rfl

theorem cellE_eq_ok (b : Board) (r c : Int) (h0 : 0 ≤ r) (h1 : r.toNat < b.length) :
    cellE b r c = .ok (cellAt b r c) := by
  unfold cellE cellAt jget
  rw [dif_pos (⟨h0, h1⟩ : 0 ≤ r ∧ r.toNat < b.length)]

theorem cellE_eq_error (b : Board) (r c : Int) (h : ¬(0 ≤ r ∧ r.toNat < b.length)) :
    cellE b r c = .error () := by
  unfold cellE jget
  rw [dif_neg h]

theorem sgn_eq_sign (d : Int) : sgn d = Int.sign d := by
  unfold sgn
  rcases lt_trichotomy d 0 with h | h | h
  · rw [if_neg (by omega), if_pos h, Int.sign_eq_neg_one_of_neg h]
  · simp [h]
  · rw [if_pos h, Int.sign_eq_one_of_pos h]

theorem sgn_mul_natAbs (d : Int) : (d.natAbs : Int) * sgn d = d := by
  rw [sgn_eq_sign, mul_comm, Int.sign_mul_natAbs]

theorem obstacleLoop_ok (b : Board) (ey ex dy dx : Int) (hd : ¬(dy = 0 ∧ dx = 0)) :
    ∀ (n fuel : Nat) (r c : Int), n ≤ fuel →
      r + n * dy = ey → c + n * dx = ex →
      (∀ k : Nat, k < n → 0 ≤ r + k * dy ∧ (r + k * dy).toNat < b.length) →
      obstacleLoop b ey ex dy dx r c fuel
        = .ok ((List.range n).countP fun k : Nat =>
            (cellAt b (r + (k : Int) * dy) (c + (k : Int) * dx)).isSome) := by
  intro n
  induction n with
  | zero =>
    intro fuel r c _ hr hc _
    rw [obstacleLoop.eq_def]
    dsimp only
    simp only [Nat.cast_zero, zero_mul, add_zero] at hr hc
    rw [if_pos ⟨hr, hc⟩]
    simp
  | succ m ih =>
    intro fuel r c hnf hr hc hrows
    have hmz : ((m : Int) + 1) ≠ 0 := by positivity
    have hne : ¬(r = ey ∧ c = ex) := by
      rintro ⟨h1, h2⟩
      push_cast at hr hc
      apply hd
      constructor
      · have : ((m : Int) + 1) * dy = 0 := by linarith
        rcases mul_eq_zero.mp this with h | h
        · exact absurd h hmz
        · exact h
      · have : ((m : Int) + 1) * dx = 0 := by linarith
        rcases mul_eq_zero.mp this with h | h
        · exact absurd h hmz
        · exact h
    rw [obstacleLoop.eq_def]
    dsimp only
    rw [if_neg hne]
    match fuel, hnf with
    | fuel2 + 1, hnf =>
    dsimp only
    have hrow0 := hrows 0 (Nat.succ_pos m)
    simp only [Nat.cast_zero, zero_mul, add_zero] at hrow0
    rw [cellE_eq_ok b r c hrow0.1 hrow0.2, okBind]
    rw [ih fuel2 (r + dy) (c + dx) (by omega)
      (by push_cast at hr ⊢; linarith)
      (by push_cast at hc ⊢; linarith)
      (by
        intro k hk
        have := hrows (k + 1) (by omega)
        constructor
        · have h1 := this.1
          push_cast at h1 ⊢
          linarith
        · have h2 := this.2
          have heq : r + dy + (k : Int) * dy = r + ((k : Nat) + 1 : Int) * dy := by ring
          rw [heq]
          have heq2 : (((k + 1 : Nat)) : Int) = ((k : Nat) + 1 : Int) := by push_cast; ring
          rw [heq2] at h2
          exact h2), okBind]
    congr 1
    rw [List.range_succ_eq_map, List.countP_cons, List.countP_map]
    have hcongr : ((List.range m).countP fun k : Nat =>
        (cellAt b (r + dy + (k : Int) * dy) (c + dx + (k : Int) * dx)).isSome)
        = (List.range m).countP
          ((fun k : Nat => (cellAt b (r + (k : Int) * dy) (c + (k : Int) * dx)).isSome)
            ∘ Nat.succ) := by
      refine List.countP_congr ?_
      intro a _
      have h1 : r + dy + (a : Int) * dy = r + ((a.succ : Nat) : Int) * dy := by push_cast; ring
      have h2 : c + dx + (a : Int) * dx = c + ((a.succ : Nat) : Int) * dx := by push_cast; ring
      rw [Function.comp_apply, h1, h2]
    rw [hcongr]
    simp only [Nat.cast_zero, zero_mul, add_zero]
    rcases hcase : (cellAt b r c).isSome with _ | _
    · simp [hcase]
    · simp [hcase, Nat.add_comm]

theorem countObstaclesE_eq (b : Board) (sy sx ey ex : Int)
    (h10 : b.length = 10) (hsy0 : 0 ≤ sy) (hsy9 : sy ≤ 9) (hey0 : 0 ≤ ey) (hey9 : ey ≤ 9)
    (hal : sy = ey ∨ sx = ex ∨ (ey - sy).natAbs = (ex - sx).natAbs) :
    countObstaclesE b (sy, sx) (ey, ex) = .ok (betweenCount b sy sx ey ex) := by
  by_cases heq : sy = ey ∧ sx = ex
  · unfold countObstaclesE betweenCount
    dsimp only
    rw [heq.1, heq.2]
    simp only [sub_self]
    have hz : sgn 0 = 0 := rfl
    rw [hz]
    rw [obstacleLoop.eq_def]
    dsimp only
    rw [if_pos ⟨by ring, by ring⟩]
    simp
  · unfold countObstaclesE betweenCount
    dsimp only
    set dy := sgn (ey - sy) with hdy
    set dx := sgn (ex - sx) with hdx
    set M := max (ey - sy).natAbs (ex - sx).natAbs with hM
    have hM1 : 1 ≤ M := by
      rcases not_and_or.mp heq with h | h
      · have : (ey - sy).natAbs ≠ 0 := by omega
        omega
      · have : (ex - sx).natAbs ≠ 0 := by omega
        omega
    have hyax : sy + (M : Int) * dy = ey := by
      rcases hal with h | h | h
      · have : dy = 0 := by rw [hdy, h]; simp [sgn]
        rw [this, h]; ring
      · have hMy : M = (ey - sy).natAbs := by
          have : (ex - sx).natAbs = 0 := by omega
          omega
        rw [hMy, hdy, sgn_mul_natAbs]; ring
      · have hMy : M = (ey - sy).natAbs := by omega
        rw [hMy, hdy, sgn_mul_natAbs]; ring
    have hxax : sx + (M : Int) * dx = ex := by
      rcases hal with h | h | h
      · have hMx : M = (ex - sx).natAbs := by
          have : (ey - sy).natAbs = 0 := by omega
          omega
        rw [hMx, hdx, sgn_mul_natAbs]; ring
      · have : dx = 0 := by rw [hdx, h]; simp [sgn]
        rw [this, h]; ring
      · have hMx : M = (ex - sx).natAbs := by omega
        rw [hMx, hdx, sgn_mul_natAbs]; ring
    have hd : ¬(dy = 0 ∧ dx = 0) := by
      rintro ⟨h1, h2⟩
      rw [h1] at hyax
      rw [h2] at hxax
      exact heq ⟨by linarith, by linarith⟩
    have hdyb : dy = 1 ∨ dy = 0 ∨ dy = -1 := by
      rw [hdy]; unfold sgn; split
      · exact Or.inl rfl
      · split
        · exact Or.inr (Or.inr rfl)
        · exact Or.inr (Or.inl rfl)
    have hrows : ∀ k : Nat, k < M - 1 →
        0 ≤ (sy + dy) + (k : Int) * dy ∧ ((sy + dy) + (k : Int) * dy).toNat < b.length := by
      intro k hk
      rw [h10]
      have harith : (sy + dy) + (k : Int) * dy = sy + ((k : Int) + 1) * dy := by ring
      rw [harith]
      have hkM : (k : Int) + 1 ≤ (M : Int) - 1 + 1 := by
        have : (k : Int) < (M : Int) - 1 := by exact_mod_cast Int.ofNat_lt.mpr (by omega)
        omega
      rcases hdyb with h | h | h
      · rw [h] at hyax ⊢
        constructor
        · omega
        · omega
      · rw [h] at hyax ⊢
        constructor
        · omega
        · omega
      · rw [h] at hyax ⊢
        constructor
        · omega
        · omega
    rw [obstacleLoop_ok b ey ex dy dx hd (M - 1) M (sy + dy) (sx + dx) (by omega)
      (by
        have hcast : ((M - 1 : Nat) : Int) = (M : Int) - 1 := by omega
        rw [hcast]; linarith [hyax])
      (by
        have hcast : ((M - 1 : Nat) : Int) = (M : Int) - 1 := by omega
        rw [hcast]; linarith [hxax])
      hrows]
    congr 1
    refine List.countP_congr ?_
    intro k _
    have h1 : sy + dy + (k : Int) * dy = sy + ((k : Int) + 1) * dy := by ring
    have h2 : sx + dx + (k : Int) * dx = sx + ((k : Int) + 1) * dx := by ring
    rw [h1, h2]

theorem hasObstacleE_eq (b : Board) (sy sx ey ex : Int)
    (h10 : b.length = 10) (hsy0 : 0 ≤ sy) (hsy9 : sy ≤ 9) (hey0 : 0 ≤ ey) (hey9 : ey ≤ 9)
    (hal : sy = ey ∨ sx = ex ∨ (ey - sy).natAbs = (ex - sx).natAbs) :
    hasObstacleE b (sy, sx) (ey, ex) = .ok (decide (0 < betweenCount b sy sx ey ex)) := by
  unfold hasObstacleE
  rw [countObstaclesE_eq b sy sx ey ex h10 hsy0 hsy9 hey0 hey9 hal]
  rfl

theorem total_inbounds (b : Board) (h10 : b.length = 10) (sy sx ey ex : Int) (turn : Team)
    (hsy0 : 0 ≤ sy) (hsy9 : sy ≤ 9) (hey0 : 0 ≤ ey) (hey9 : ey ≤ 9) :
    ∃ v, isValidMove b (sy, sx) (ey, ex) turn = .ok v := by
  unfold isValidMove
  dsimp only
  by_cases h0 : sy = ey ∧ sx = ex
  · rw [if_pos h0]
    exact ⟨false, rfl⟩
  rw [if_neg h0]
  rw [cellE_eq_ok b sy sx hsy0 (by omega), okBind]
  cases hp : cellAt b sy sx with
  | none => exact ⟨false, rfl⟩
  | some piece =>
  dsimp only
  by_cases ht : piece.team ≠ turn
  · rw [if_pos ht]
    exact ⟨false, rfl⟩
  rw [if_neg ht]
  rw [cellE_eq_ok b ey ex hey0 (by omega), okBind]
  by_cases htgt : (cellAt b ey ex).any (fun t => decide (t.team = piece.team)) = true
  · rw [if_pos htgt]
    exact ⟨false, rfl⟩
  rw [if_neg htgt]
  have hchaDiag : ∃ v,
      (if inPalace sy sx piece.team ∧ inPalace ey ex piece.team ∧ (ex - sx).natAbs = (ey - sy).natAbs then
        (hasObstacleE b (sy, sx) (ey, ex)).bind fun h2 => Except.ok (!h2)
      else Except.ok false) = Except.ok v := by
    by_cases hpal : inPalace sy sx piece.team ∧ inPalace ey ex piece.team ∧ (ex - sx).natAbs = (ey - sy).natAbs
    · rw [if_pos hpal]
      rw [hasObstacleE_eq b sy sx ey ex h10 hsy0 hsy9 hey0 hey9 (Or.inr (Or.inr hpal.2.2.symm))]
      exact ⟨_, rfl⟩
    · rw [if_neg hpal]
      exact ⟨false, rfl⟩
  cases hpt : piece.type
  case neg.cha =>
    dsimp only
    by_cases hs : sx = ex ∨ sy = ey
    · rw [if_pos hs]
      rw [hasObstacleE_eq b sy sx ey ex h10 hsy0 hsy9 hey0 hey9 (by tauto), okBind]
      by_cases hob : decide (0 < betweenCount b sy sx ey ex) = true
      · rw [if_pos hob]
        by_cases hpal : inPalace sy sx piece.team ∧ inPalace ey ex piece.team ∧
            (ex - sx).natAbs = (ey - sy).natAbs
        · rw [if_pos hpal, okBind]
          exact ⟨_, rfl⟩
        · rw [if_neg hpal]
          exact ⟨false, rfl⟩
      · rw [if_neg hob]
        exact ⟨true, rfl⟩
    · rw [if_neg hs]
      exact hchaDiag
  case neg.jol =>
    dsimp only
    split
    · split
      · split
        · exact ⟨true, rfl⟩
        · split
          · exact ⟨true, rfl⟩
          · exact ⟨false, rfl⟩
      · exact ⟨false, rfl⟩
    · split
      · exact ⟨false, rfl⟩
      · split
        · exact ⟨false, rfl⟩
        · exact ⟨true, rfl⟩
  case neg.ma =>
    dsimp only
    by_cases hm1 : (ex - sx).natAbs = 1 ∧ (ey - sy).natAbs = 2
    · rw [if_pos hm1]
      rw [cellE_eq_ok b (sy + (ey - sy) / 2) sx (by omega) (by omega), okBind]
      exact ⟨_, rfl⟩
    · rw [if_neg hm1]
      by_cases hm2 : (ex - sx).natAbs = 2 ∧ (ey - sy).natAbs = 1
      · rw [if_pos hm2]
        rw [cellE_eq_ok b sy (sx + (ex - sx) / 2) (by omega) (by omega), okBind]
        exact ⟨_, rfl⟩
      · rw [if_neg hm2]
        exact ⟨false, rfl⟩
  case neg.sang =>
    dsimp only
    by_cases hs1 : (ex - sx).natAbs = 2 ∧ (ey - sy).natAbs = 3
    · rw [if_pos hs1]
      rw [cellE_eq_ok b (sy + (ey - sy) / 3) sx (by omega) (by omega), okBind]
      rw [cellE_eq_ok b (sy + (ey - sy) / 3 * 2) (sx + (ex - sx) / 2) (by omega) (by omega), okBind]
      exact ⟨_, rfl⟩
    · rw [if_neg hs1]
      by_cases hs2 : (ex - sx).natAbs = 3 ∧ (ey - sy).natAbs = 2
      · rw [if_pos hs2]
        rw [cellE_eq_ok b sy (sx + (ex - sx) / 3) (by omega) (by omega), okBind]
        rw [cellE_eq_ok b (sy + (ey - sy) / 2) (sx + (ex - sx) / 3 * 2) (by omega) (by omega), okBind]
        exact ⟨_, rfl⟩
      · rw [if_neg hs2]
        exact ⟨false, rfl⟩
  case neg.sa =>
    dsimp only
    split
    · exact ⟨false, rfl⟩
    · split
      · exact ⟨true, rfl⟩
      · split
        · exact ⟨_, rfl⟩
        · exact ⟨false, rfl⟩
  case neg.jang =>
    dsimp only
    split
    · exact ⟨false, rfl⟩
    · split
      · exact ⟨true, rfl⟩
      · split
        · exact ⟨_, rfl⟩
        · exact ⟨false, rfl⟩
  case neg.po =>
    dsimp only
    split
    · exact ⟨false, rfl⟩
    · by_cases hs : sx = ex ∨ sy = ey
      · rw [if_pos hs]
        rw [countObstaclesE_eq b sy sx ey ex h10 hsy0 hsy9 hey0 hey9 (by tauto), okBind]
        exact ⟨_, rfl⟩
      · rw [if_neg hs]
        by_cases hpal : inPalace sy sx piece.team ∧ inPalace ey ex piece.team ∧ (ex - sx).natAbs = (ey - sy).natAbs
        · rw [if_pos hpal]
          rw [countObstaclesE_eq b sy sx ey ex h10 hsy0 hsy9 hey0 hey9 (Or.inr (Or.inr hpal.2.2.symm)), okBind]
          exact ⟨_, rfl⟩
        · rw [if_neg hpal]
          exact ⟨false, rfl⟩

theorem errBind {α β : Type} (f : α → Except Unit β) :
    (Except.error () : Except Unit α).bind f = Except.error () := rfl

/-- Claim C4 (amended): on the 10-row board the legality predicate returns a
boolean whenever both row coordinates lie in 0..9, whatever the columns are
(an out-of-bounds column is read as an empty cell, so such a destination is
not necessarily rejected); an out-of-bounds SOURCE row makes the row access
fail with a runtime error instead of returning false, except for the trivial
source-equals-destination case, which returns false before any board access;
an out-of-bounds DESTINATION row with in-range source row faults exactly when
the source filters pass (the source square holds a piece of the side to
move), and returns false when the source square is empty or holds the other
side's piece, because the destination row is then never read. -/
theorem C4_legality_totality :
    ∀ (b : Board), b.length = 10 → ∀ (sy sx ey ex : Int) (turn : Team),
      ((0 ≤ sy ∧ sy ≤ 9 ∧ 0 ≤ ey ∧ ey ≤ 9) →
        ∃ v, isValidMove b (sy, sx) (ey, ex) turn = .ok v)
      ∧ (¬(0 ≤ sy ∧ sy ≤ 9) → ¬(sy = ey ∧ sx = ex) →
        isValidMove b (sy, sx) (ey, ex) turn = .error ())
      ∧ ((0 ≤ sy ∧ sy ≤ 9) → ¬(0 ≤ ey ∧ ey ≤ 9) →
        ∀ p : Piece, cellAt b sy sx = some p → p.team = turn →
        isValidMove b (sy, sx) (ey, ex) turn = .error ())
      ∧ ((0 ≤ sy ∧ sy ≤ 9) → ¬(0 ≤ ey ∧ ey ≤ 9) →
        (∀ p : Piece, cellAt b sy sx = some p → p.team ≠ turn) →
        isValidMove b (sy, sx) (ey, ex) turn = .ok false) := by
  intro b h10 sy sx ey ex turn
  refine ⟨?_, ?_, ?_, ?_⟩
  · intro hb
    exact total_inbounds b h10 sy sx ey ex turn hb.1 hb.2.1 hb.2.2.1 hb.2.2.2
  · intro hrow hne
    unfold isValidMove
    dsimp only
    rw [if_neg hne]
    rw [cellE_eq_error b sy sx (by omega), errBind]
  · intro hsy hey p hp hteam
    unfold isValidMove
    dsimp only
    rw [if_neg (by omega : ¬(sy = ey ∧ sx = ex))]
    rw [cellE_eq_ok b sy sx (by omega) (by omega), okBind, hp]
    dsimp only
    rw [if_neg (by simp [hteam] : ¬(p.team ≠ turn))]
    rw [cellE_eq_error b ey ex (by omega), errBind]
  · intro hsy hey hfail
    unfold isValidMove
    dsimp only
    rw [if_neg (by omega : ¬(sy = ey ∧ sx = ex))]
    rw [cellE_eq_ok b sy sx (by omega) (by omega), okBind]
    cases hcell : cellAt b sy sx with
    | none => rfl
    | some p =>
      dsimp only
      rw [if_pos (hfail p hcell)]

/-- Claim C10: for a horse, with the from/to/side filters passing, an (1,2)-
or (2,1)-shaped jump is legal exactly when the single intermediate cell
adjacent to the start along the long displacement axis is empty (for a (2,1)
jump from (9,1) to (7,2) that cell is (8,1)). -/
theorem C10_horse_leg (b : Board) (h10 : b.length = 10) (sy sx ey ex : Int) (turn : Team)
    (hsy0 : 0 ≤ sy) (hsy9 : sy ≤ 9) (hey0 : 0 ≤ ey) (hey9 : ey ≤ 9)
    (hp : cellAt b sy sx = some ⟨PieceType.ma, turn⟩)
    (htgt : ∀ t : Piece, cellAt b ey ex = some t → t.team ≠ turn)
    (hshape : ((ey - sy).natAbs = 2 ∧ (ex - sx).natAbs = 1) ∨
      ((ey - sy).natAbs = 1 ∧ (ex - sx).natAbs = 2)) :
    isValidMove b (sy, sx) (ey, ex) turn = .ok true ↔
      cellAt b (maLegCell sy sx ey ex).1 (maLegCell sy sx ey ex).2 = none := by
  have htf : (cellAt b ey ex).any (fun t => decide (t.team = turn)) = false := by
    cases hc : cellAt b ey ex with
    | none => rfl
    | some t => simp [Option.any, htgt t hc]
  unfold isValidMove
  dsimp only
  rw [if_neg (by omega : ¬(sy = ey ∧ sx = ex))]
  rw [cellE_eq_ok b sy sx hsy0 (by omega), okBind, hp]
  dsimp only
  rw [if_neg (by simp : ¬turn ≠ turn)]
  rw [cellE_eq_ok b ey ex hey0 (by omega), okBind]
  rw [htf]
  simp only [Bool.false_eq_true, if_false]
  rcases hshape with ⟨hdy, hdx⟩ | ⟨hdy, hdx⟩
  · rw [if_pos (⟨hdx, hdy⟩ : (ex - sx).natAbs = 1 ∧ (ey - sy).natAbs = 2)]
    rw [cellE_eq_ok b (sy + (ey - sy) / 2) sx (by omega) (by omega), okBind]
    simp only [maLegCell, hdy, if_pos]
    have h2 : ey - sy = 2 ∨ ey - sy = -2 := by omega
    rcases h2 with h2 | h2 <;>
      rw [h2] <;>
      norm_num [sgn]
  · rw [if_neg (by omega : ¬((ex - sx).natAbs = 1 ∧ (ey - sy).natAbs = 2))]
    rw [if_pos (⟨hdx, hdy⟩ : (ex - sx).natAbs = 2 ∧ (ey - sy).natAbs = 1)]
    rw [cellE_eq_ok b sy (sx + (ex - sx) / 2) hsy0 (by omega), okBind]
    have hno : ¬((ey - sy).natAbs = 2) := by omega
    simp only [maLegCell, hno, if_neg]
    have h2 : ex - sx = 2 ∨ ex - sx = -2 := by omega
    rcases h2 with h2 | h2 <;>
      rw [h2] <;>
      norm_num [sgn]

set_option maxRecDepth 40000 in
/-- Witness for C10: the horse on (9,1) of the initial board may jump to
(7,2) because (8,1) is empty. -/
theorem C10_witness :
    isValidMove (initBoard SetupType.an SetupType.an) (9, 1) (7, 2) Team.r = .ok true := by
  refine (C10_horse_leg (initBoard SetupType.an SetupType.an) (by decide) 9 1 7 2 Team.r
    (by decide) (by decide) (by decide) (by decide) (by decide) ?_ (by decide)).mpr (by decide)
  intro t ht
  rw [(by decide : cellAt (initBoard SetupType.an SetupType.an) 7 2 = (none : Option Piece))] at ht
  cases ht

/-- Claim C8 (amended): for an elephant, with the from/to/side filters
passing, a (2,3)- or (3,2)-shaped jump is legal exactly when both
intermediate cells are empty, the first being one step from the source along
the LONG axis of the displacement and the second its diagonal continuation
toward the destination. -/
theorem C8_elephant_path (b : Board) (h10 : b.length = 10) (sy sx ey ex : Int) (turn : Team)
    (hsy0 : 0 ≤ sy) (hsy9 : sy ≤ 9) (hey0 : 0 ≤ ey) (hey9 : ey ≤ 9)
    (hp : cellAt b sy sx = some ⟨PieceType.sang, turn⟩)
    (htgt : ∀ t : Piece, cellAt b ey ex = some t → t.team ≠ turn)
    (hshape : ((ey - sy).natAbs = 3 ∧ (ex - sx).natAbs = 2) ∨
      ((ey - sy).natAbs = 2 ∧ (ex - sx).natAbs = 3)) :
    isValidMove b (sy, sx) (ey, ex) turn = .ok true ↔
      (cellAt b (sangLongAxisCells sy sx ey ex).1.1 (sangLongAxisCells sy sx ey ex).1.2 = none
        ∧ cellAt b (sangLongAxisCells sy sx ey ex).2.1 (sangLongAxisCells sy sx ey ex).2.2 = none) := by
  have htf : (cellAt b ey ex).any (fun t => decide (t.team = turn)) = false := by
    cases hc : cellAt b ey ex with
    | none => rfl
    | some t => simp [Option.any, htgt t hc]
  unfold isValidMove
  dsimp only
  rw [if_neg (by omega : ¬(sy = ey ∧ sx = ex))]
  rw [cellE_eq_ok b sy sx hsy0 (by omega), okBind, hp]
  dsimp only
  rw [if_neg (by simp : ¬turn ≠ turn)]
  rw [cellE_eq_ok b ey ex hey0 (by omega), okBind]
  rw [htf]
  simp only [Bool.false_eq_true, if_false]
  rcases hshape with ⟨hdy, hdx⟩ | ⟨hdy, hdx⟩
  · rw [if_pos (⟨hdx, hdy⟩ : (ex - sx).natAbs = 2 ∧ (ey - sy).natAbs = 3)]
    rw [cellE_eq_ok b (sy + (ey - sy) / 3) sx (by omega) (by omega), okBind]
    rw [cellE_eq_ok b (sy + (ey - sy) / 3 * 2) (sx + (ex - sx) / 2) (by omega) (by omega), okBind]
    have hlt : (ex - sx).natAbs < (ey - sy).natAbs := by omega
    simp only [sangLongAxisCells, hlt, if_pos]
    have h2 : ey - sy = 3 ∨ ey - sy = -3 := by omega
    have h3 : ex - sx = 2 ∨ ex - sx = -2 := by omega
    rcases h2 with h2 | h2 <;> rcases h3 with h3 | h3 <;>
      rw [h2, h3] <;>
      norm_num [sgn]
  · rw [if_neg (by omega : ¬((ex - sx).natAbs = 2 ∧ (ey - sy).natAbs = 3))]
    rw [if_pos (⟨hdx, hdy⟩ : (ex - sx).natAbs = 3 ∧ (ey - sy).natAbs = 2)]
    rw [cellE_eq_ok b sy (sx + (ex - sx) / 3) hsy0 (by omega), okBind]
    rw [cellE_eq_ok b (sy + (ey - sy) / 2) (sx + (ex - sx) / 3 * 2) (by omega) (by omega), okBind]
    have hlt : ¬((ex - sx).natAbs < (ey - sy).natAbs) := by omega
    simp only [sangLongAxisCells, hlt, if_neg]
    have h2 : ey - sy = 2 ∨ ey - sy = -2 := by omega
    have h3 : ex - sx = 3 ∨ ex - sx = -3 := by omega
    rcases h2 with h2 | h2 <;> rcases h3 with h3 | h3 <;>
      rw [h2, h3] <;>
      norm_num [sgn]

set_option maxRecDepth 40000 in
/-- Counterexample to C8 as stated: on sangBlockBoard the (2,3) jump from
(0,0) to (2,3) is accepted by the code although the cell one step along the
SHORT axis of the displacement, (1,0), is occupied - the claim's
short-axis-first reading predicts the move is illegal. -/
theorem C8_counterexample :
    ¬(isValidMove sangBlockBoard (0, 0) (2, 3) Team.b = .ok true ↔
      (cellAt sangBlockBoard (sangShortAxisCells 0 0 2 3).1.1
          (sangShortAxisCells 0 0 2 3).1.2 = none
        ∧ cellAt sangBlockBoard (sangShortAxisCells 0 0 2 3).2.1
          (sangShortAxisCells 0 0 2 3).2.2 = none)) := by
  decide

set_option maxRecDepth 40000 in
/-- Witness for C8: the same jump evaluated through the amended theorem - the
long-axis cells (0,1) and (1,2) are empty, so the move is legal. -/
theorem C8_witness :
    isValidMove sangBlockBoard (0, 0) (2, 3) Team.b = .ok true := by
  refine (C8_elephant_path sangBlockBoard (by decide) 0 0 2 3 Team.b
    (by decide) (by decide) (by decide) (by decide) (by decide) ?_ (by decide)).mpr (by decide)
  intro t ht
  rw [(by decide : cellAt sangBlockBoard 2 3 = (none : Option Piece))] at ht
  cases ht

set_option maxRecDepth 400000 in
/-- Counterexample to C4 as stated: the legality check on the initial board
with source row 10 faults (the row read is undefined) instead of returning
false, and a rook move to the out-of-bounds column 20 along a clear row is
even accepted, so out-of-bounds coordinates neither always yield a boolean
nor always yield false. -/
theorem C4_counterexample :
    isValidMove (initBoard SetupType.an SetupType.an) (10, 0) (0, 0) Team.r = .error ()
    ∧ isValidMove chaEdgeBoard (9, 0) (9, 20) Team.r = .ok true := by
  constructor
  · decide
  · decide

set_option maxRecDepth 40000 in
/-- Witness for C4: the totality half applied to the initial board on the
in-bounds pair (0,0) to (5,5), and the false-not-fault half applied to the
empty board on the out-of-bounds destination row 15 from the empty source
square (0,0). -/
theorem C4_witness :
    (∃ v, isValidMove (initBoard SetupType.an SetupType.an) (0, 0) (5, 5) Team.b = .ok v)
    ∧ isValidMove emptyBoard (0, 0) (15, 0) Team.b = .ok false := by
  constructor
  · exact (C4_legality_totality (initBoard SetupType.an SetupType.an) (by decide)
      0 0 5 5 Team.b).1 (by decide)
  · refine (C4_legality_totality emptyBoard (by decide) 0 0 15 0 Team.b).2.2.2
      (by decide) (by decide) ?_
    intro p hp
    rw [(by decide : cellAt emptyBoard 0 0 = (none : Option Piece))] at hp
    cases hp

/-- Claim C3 (amended): for a cannon, a move is legal if and only if it runs
along a straight line or (with both endpoints inside the mover's own palace)
a palace diagonal with exactly one piece strictly between source and
destination, and the destination holds neither a piece of the mover's side
nor a cannon of either side.  The kind of the single screening piece is NOT
inspected: a cannon screen is allowed. -/
theorem C3_cannon (b : Board) (h10 : b.length = 10) (sy sx ey ex : Int) (turn : Team)
    (hsy0 : 0 ≤ sy) (hsy9 : sy ≤ 9) (hey0 : 0 ≤ ey) (hey9 : ey ≤ 9)
    (hp : cellAt b sy sx = some ⟨PieceType.po, turn⟩) :
    isValidMove b (sy, sx) (ey, ex) turn = .ok true ↔
      ((∀ t : Piece, cellAt b ey ex = some t → t.team ≠ turn ∧ t.type ≠ PieceType.po)
        ∧ ((sx = ex ∨ sy = ey)
          ∨ (inPalace sy sx turn ∧ inPalace ey ex turn
            ∧ (ex - sx).natAbs = (ey - sy).natAbs))
        ∧ betweenCount b sy sx ey ex = 1) := by
  unfold isValidMove
  dsimp only
  by_cases h0 : sy = ey ∧ sx = ex
  · rw [if_pos h0]
    obtain ⟨h1, h2⟩ := h0
    subst h1
    subst h2
    constructor
    · intro h
      exact absurd h (by simp)
    · rintro ⟨-, -, hcount⟩
      exfalso
      unfold betweenCount at hcount
      simp at hcount
  · rw [if_neg h0]
    rw [cellE_eq_ok b sy sx hsy0 (by omega), okBind, hp]
    dsimp only
    rw [if_neg (by simp : ¬turn ≠ turn)]
    rw [cellE_eq_ok b ey ex hey0 (by omega), okBind]
    have hcore : ∀ hfilters : True,
        ((if sx = ex ∨ sy = ey then
            (countObstaclesE b (sy, sx) (ey, ex)).bind fun n => Except.ok (decide (n = 1))
          else if inPalace sy sx turn ∧ inPalace ey ex turn
              ∧ (ex - sx).natAbs = (ey - sy).natAbs then
            (countObstaclesE b (sy, sx) (ey, ex)).bind fun n => Except.ok (decide (n = 1))
          else Except.ok false) = Except.ok true
          ↔ (((sx = ex ∨ sy = ey)
            ∨ (inPalace sy sx turn ∧ inPalace ey ex turn
              ∧ (ex - sx).natAbs = (ey - sy).natAbs))
            ∧ betweenCount b sy sx ey ex = 1)) := by
      intro _
      by_cases hs : sx = ex ∨ sy = ey
      · rw [if_pos hs]
        rw [countObstaclesE_eq b sy sx ey ex h10 hsy0 hsy9 hey0 hey9 (by tauto), okBind]
        simp only [Except.ok.injEq, decide_eq_true_eq]
        tauto
      · rw [if_neg hs]
        by_cases hpal : inPalace sy sx turn ∧ inPalace ey ex turn
            ∧ (ex - sx).natAbs = (ey - sy).natAbs
        · rw [if_pos hpal]
          rw [countObstaclesE_eq b sy sx ey ex h10 hsy0 hsy9 hey0 hey9
            (Or.inr (Or.inr hpal.2.2.symm)), okBind]
          simp only [Except.ok.injEq, decide_eq_true_eq]
          tauto
        · rw [if_neg hpal]
          constructor
          · intro h
            exact absurd h (by simp)
          · rintro ⟨h, -⟩
            exact absurd h (by tauto)
    cases hc : cellAt b ey ex with
    | none =>
      simp only [Option.any_none]
      rw [if_neg (by simp)]
      rw [if_neg (by simp)]
      refine (hcore trivial).trans ?_
      constructor
      · intro h
        refine ⟨?_, h.1, h.2⟩
        intro t ht
        cases ht
      · rintro ⟨-, h1, h2⟩
        exact ⟨h1, h2⟩
    | some t0 =>
      simp only [Option.any_some]
      by_cases hteam : t0.team = turn
      · rw [if_pos (by simp [hteam])]
        constructor
        · intro h
          exact absurd h (by simp)
        · rintro ⟨hcond, -, -⟩
          exact absurd (hcond t0 rfl).1 (by simp [hteam])
      · rw [if_neg (by simp [hteam])]
        by_cases htype : t0.type = PieceType.po
        · rw [if_pos (by simp [htype])]
          constructor
          · intro h
            exact absurd h (by simp)
          · rintro ⟨hcond, -, -⟩
            exact absurd (hcond t0 rfl).2 (by simp [htype])
        · rw [if_neg (by simp [htype])]
          refine (hcore trivial).trans ?_
          constructor
          · intro h
            refine ⟨?_, h.1, h.2⟩
            intro t ht
            cases ht
            exact ⟨hteam, htype⟩
          · rintro ⟨-, h1, h2⟩
            exact ⟨h1, h2⟩

set_option maxRecDepth 40000 in
/-- Counterexample to C3 as stated: the red cannon on (7,1) may jump to the
empty (2,1) although its unique screening piece, on (5,1), is itself a
cannon - the claim says jumping over a cannon is illegal. -/
theorem C3_counterexample :
    isValidMove poScreenBoard (7, 1) (2, 1) Team.r = .ok true
    ∧ cellAt poScreenBoard 5 1 = some ⟨PieceType.po, Team.b⟩
    ∧ betweenCount poScreenBoard 7 1 2 1 = 1 := by
  refine ⟨by decide, by decide, by decide⟩

set_option maxRecDepth 40000 in
/-- Witness for C3: the amended theorem evaluated on the red cannon at (7,1)
with a single horse screen at (5,1) and empty target (2,1). -/
theorem C3_witness :
    isValidMove poHorseScreenBoard (7, 1) (2, 1) Team.r = .ok true := by
  refine (C3_cannon poHorseScreenBoard (by decide) 7 1 2 1 Team.r
    (by decide) (by decide) (by decide) (by decide) (by decide)).mpr
    ⟨?_, Or.inl (Or.inl rfl), by decide⟩
  intro t ht
  rw [(by decide : cellAt poHorseScreenBoard 2 1 = (none : Option Piece))] at ht
  cases ht

set_option maxHeartbeats 1000000 in
/-- Claim C6: undo after a move restores board, side to move and history to
their exact pre-move values; undo on an empty history changes nothing; and
one undo exactly reverses one pass.  This holds for every state and every
coordinate pair, hence in particular for reachable states and legal moves. -/
theorem C6_undo_reverses :
    ∀ (s : AppState) (start en : Int × Int),
      ((undoMove (executeMove s start en).1).board = s.board
        ∧ (undoMove (executeMove s start en).1).turn = s.turn
        ∧ (undoMove (executeMove s start en).1).history = s.history)
      ∧ (s.history = [] → undoMove s = s)
      ∧ ((undoMove (passTurn s)).board = s.board
        ∧ (undoMove (passTurn s)).turn = s.turn
        ∧ (undoMove (passTurn s)).history = s.history) := by
  intro s start en
  refine ⟨?_, ?_, ?_⟩
  · unfold executeMove undoMove
    dsimp only
    rw [List.getLast?_concat]
    dsimp only
    rw [List.dropLast_concat]
    exact ⟨rfl, rfl, rfl⟩
  · intro h
    unfold undoMove
    rw [h]
    rfl
  · unfold passTurn undoMove
    dsimp only
    rw [List.getLast?_concat]
    dsimp only
    rw [List.dropLast_concat]
    exact ⟨rfl, rfl, rfl⟩

/-- Claim C9 (amended): after resign the started flag is false, and a human
square click on a non-started game is a strict no-op; a late engine best-move
line, however, is NOT blocked (see the counterexample). -/
theorem C9_resigned_click_ignored :
    ∀ (s : AppState) (r c : Int), s.gameStarted = false → handleSquareClick s r c = (s, []) := by
  intro s r c h
  unfold handleSquareClick
  rw [if_pos h]

/-- Claim C7 (amended): the engine-turn request path checkEngineMove is
gated by the single in-flight flag and issues nothing while a request is
pending; the analysis send inside executeMove is not gated (see the
counterexample). -/
theorem C7_checkEngineMove_gated :
    ∀ s : AppState, s.thinking = true → checkEngineMove s = (s, []) := by
  intro s h
  unfold checkEngineMove
  rw [if_pos (Or.inr (Or.inr h))]

/-- Claim C2 (amended): the bestmove branch of the engine-output handler
clears the in-flight flag and applies the move token regardless of whether a
search request is pending - the resulting board and history do not depend on
the flag's prior value. -/
theorem C2_bestmove_unconditional :
    ∀ (s : AppState) (line : String) (b1 b2 : Bool),
      jsStartsWith line "bestmove" = true →
      ((onEngineLine { s with thinking := b1 } line).1.board
          = (onEngineLine { s with thinking := b2 } line).1.board
        ∧ (onEngineLine { s with thinking := b1 } line).1.history
          = (onEngineLine { s with thinking := b2 } line).1.history
        ∧ (onEngineLine { s with thinking := b1 } line).1.thinking = false) := by
  have key : ∀ (s : AppState) (line : String) (bb : Bool),
      jsStartsWith line "bestmove" = true →
      onEngineLine { s with thinking := bb } line
        = onEngineLine { s with thinking := false } line := by
    intro s line bb h
    unfold onEngineLine
    rw [h, if_pos rfl]
    rfl
  intro s line b1 b2 h
  rw [key s line b1 h, key s line b2 h]
  refine ⟨rfl, rfl, ?_⟩
  unfold onEngineLine
  rw [h, if_pos rfl]
  cases hsp : ((jsSplit line ' ').get? 1) with
  | none => rfl
  | some m =>
    dsimp only
    by_cases hm : m ≠ "" ∧ m ≠ "(none)"
    · rw [if_pos hm]
      unfold applyEngineMove
      cases hdm : decodeMove m with
      | none => rfl
      | some mv =>
        unfold executeMove
        rfl
    · rw [if_neg hm]

set_option maxRecDepth 400000 in
/-- Counterexample to C2 as stated: in startedState no request is pending
(the flag is false), yet the stray line bestmove a6a5 is applied: board and
history change. -/
theorem C2_counterexample :
    startedState.thinking = false
    ∧ (onEngineLine startedState "bestmove a6a5").1.board ≠ startedState.board
    ∧ (onEngineLine startedState "bestmove a6a5").1.history ≠ startedState.history := by
  refine ⟨by decide, by decide, by decide⟩

/-- Witness for C2: the amended theorem applied to startedState with the
line bestmove a6a5 and flag values true and false. -/
theorem C2_witness :
    ((onEngineLine { startedState with thinking := true } "bestmove a6a5").1.board
        = (onEngineLine { startedState with thinking := false } "bestmove a6a5").1.board
      ∧ (onEngineLine { startedState with thinking := true } "bestmove a6a5").1.history
        = (onEngineLine { startedState with thinking := false } "bestmove a6a5").1.history
      ∧ (onEngineLine { startedState with thinking := true } "bestmove a6a5").1.thinking
        = false) :=
  C2_bestmove_unconditional startedState "bestmove a6a5" true false rfl

set_option maxRecDepth 400000 in
/-- Witness for C6: undoing the opening soldier move of startedState restores
its board, and undo on the empty history of startedState is the identity. -/
theorem C6_witness :
    (undoMove (executeMove startedState (3, 0) (4, 0)).1).board = startedState.board
    ∧ undoMove startedState = startedState := by
  obtain ⟨h1, h2, h3⟩ := C6_undo_reverses startedState (3, 0) (4, 0)
  exact ⟨h1.1, h2 (by decide)⟩

set_option maxRecDepth 400000 in
/-- Counterexample to C7 as stated: after Blue's move from clickState1 one
search request is outstanding (pending = 1, sent by the ungated analysis send
in executeMove), yet Red's next move sends a second position/go pair before
any bestmove reply, leaving two requests outstanding. -/
theorem C7_counterexample :
    clickState3.pending = 1 ∧ clickState3.thinking = false
    ∧ (handleSquareClick clickState3 5 0).1.pending = 2
    ∧ (handleSquareClick clickState3 5 0).2.length = 2 := by
  refine ⟨by decide, by decide, by decide, by decide⟩

set_option maxRecDepth 400000 in
/-- Witness for C7: checkEngineMove on a state whose in-flight flag is set
issues nothing. -/
theorem C7_witness :
    checkEngineMove { startedState with thinking := true }
      = ({ startedState with thinking := true }, []) :=
  C7_checkEngineMove_gated { startedState with thinking := true } rfl

set_option maxRecDepth 400000 in
/-- Counterexample to C9 as stated: after resign (started flag cleared) the
late line bestmove a6a5 still mutates the board of the resigned game. -/
theorem C9_counterexample :
    (resign startedState).gameStarted = false
    ∧ (onEngineLine (resign startedState) "bestmove a6a5").1.board
      ≠ (resign startedState).board := by
  refine ⟨by decide, by decide⟩

set_option maxRecDepth 400000 in
/-- Witness for C9: a human click on the resigned game is a strict no-op. -/
theorem C9_witness :
    handleSquareClick (resign startedState) 3 0 = (resign startedState, []) :=
  C9_resigned_click_ignored (resign startedState) 3 0 (by decide)

/-- Claim C5 (amended): the decoder reads exactly the first four characters
of the token: it succeeds precisely when the string has at least four
characters whose first four are file letter, rank digit, file letter, rank
digit (file a..i giving column 0..8, internal row 9 minus the rank digit),
and fails - applying no move - otherwise; characters beyond the fourth are
ignored, so an over-long token is not rejected. -/
theorem C5_decode (s : String) :
    ((decodeMove s).isSome ↔
      ∃ c0 c1 c2 c3 rest, s.toList = c0 :: c1 :: c2 :: c3 :: rest
        ∧ (colMap c0).isSome ∧ (digitVal c1).isSome
        ∧ (colMap c2).isSome ∧ (digitVal c3).isSome)
    ∧ (∀ (c0 c1 c2 c3 : Char) (rest : List Char) (a d1 e1 d2 : Int),
        s.toList = c0 :: c1 :: c2 :: c3 :: rest →
        colMap c0 = some a → digitVal c1 = some d1 →
        colMap c2 = some e1 → digitVal c3 = some d2 →
        decodeMove s = some ((9 - d1, a), (9 - d2, e1))) := by
  unfold decodeMove
  cases hl : s.toList with
  | nil => simp [List.get?]
  | cons c0 t0 =>
    cases t0 with
    | nil => simp [List.get?]
    | cons c1 t1 =>
      cases t1 with
      | nil => simp [List.get?]
      | cons c2 t2 =>
        cases t2 with
        | nil => simp [List.get?]
        | cons c3 rest =>
          rcases hc0 : colMap c0 with _ | a <;>
          rcases hc1 : digitVal c1 with _ | d1 <;>
          rcases hc2 : colMap c2 with _ | e1 <;>
          rcases hc3 : digitVal c3 with _ | d2 <;>
            simp_all [List.get?] <;>
            first
            | (intro x0 x1 x2 x3 h0 h1 h2 h3 g1 g2 g3
               subst h0
               subst h1
               subst h2
               subst h3
               simp_all)
            | exact ⟨c0, c1, c2, c3, ⟨rfl, rfl, rfl, rfl⟩,
                by simp [hc0], by simp [hc1], by simp [hc2], by simp [hc3]⟩

/-- Counterexample to C5 as stated: the five-character token a0a0x has the
wrong length, yet the decoder does not fail - it decodes the first four
characters. -/
theorem C5_counterexample :
    "a0a0x".length ≠ 4 ∧ decodeMove "a0a0x" = some ((9, 0), (9, 0)) := by
  refine ⟨by decide, by decide⟩

/-- Witness for C5: the value half of the amended theorem evaluated on the
token b0c2, giving source (9,1) and destination (7,2). -/
theorem C5_witness : decodeMove "b0c2" = some ((9, 1), (7, 2)) := by
  have h := (C5_decode "b0c2").2 'b' '0' 'c' '2' [] 1 0 2 2 (by decide)
    (by decide) (by decide) (by decide) (by decide)
  norm_num at h
  exact h

/-- Claim C1 (amended): a human square click mutates the board only when a
source square is selected and the Rule Engine has returned true for the
(selected, clicked) pair against the current board and side; engine
best-move lines, by contrast, are applied without any legality check (see
the counterexample). -/
theorem C1_human_validated :
    ∀ (s : AppState) (r c : Int),
      (handleSquareClick s r c).1.board ≠ s.board →
      ∃ sel, s.selected = some sel
        ∧ isValidMove s.board (sel.1, sel.2) (r, c) s.turn = .ok true := by
  intro s r c hchange
  unfold handleSquareClick at hchange
  by_cases h1 : s.gameStarted = false
  · rw [if_pos h1] at hchange
    exact absurd rfl hchange
  rw [if_neg h1] at hchange
  by_cases h2 : s.engineEnabled = true ∧ s.gameMode ≠ .PvP ∧
      (s.gameMode = .CvC ∨ (s.gameMode = .PvC ∧ s.turn = .r)
        ∨ (s.gameMode = .CvP ∧ s.turn = .b))
  · rw [if_pos h2] at hchange
    exact absurd rfl hchange
  rw [if_neg h2] at hchange
  cases hsel : s.selected with
  | none =>
    rw [hsel] at hchange
    dsimp only at hchange
    cases hcell : cellAt s.board r c with
    | none =>
      rw [hcell] at hchange
      exact absurd rfl hchange
    | some piece =>
      rw [hcell] at hchange
      dsimp only at hchange
      by_cases hteam : piece.team = s.turn
      · rw [if_pos hteam] at hchange
        exact absurd rfl hchange
      · rw [if_neg hteam] at hchange
        exact absurd rfl hchange
  | some sel =>
    rw [hsel] at hchange
    dsimp only at hchange
    by_cases hsame : sel.1 = r ∧ sel.2 = c
    · rw [if_pos hsame] at hchange
      exact absurd rfl hchange
    rw [if_neg hsame] at hchange
    cases hcs : cellAt s.board sel.1 sel.2 with
    | none =>
      rw [hcs] at hchange
      exact absurd rfl hchange
    | some piece =>
      rw [hcs] at hchange
      dsimp only at hchange
      by_cases hv : isValidMove s.board (sel.1, sel.2) (r, c) s.turn = .ok true
      · exact ⟨sel, rfl, hv⟩
      cases hct : cellAt s.board r c with
      | none =>
        rw [hct] at hchange
        dsimp only at hchange
        rw [if_neg hv] at hchange
        exact absurd rfl hchange
      | some target =>
        rw [hct] at hchange
        dsimp only at hchange
        by_cases htt : target.team = piece.team
        · rw [if_pos htt] at hchange
          exact absurd rfl hchange
        · rw [if_neg htt] at hchange
          rw [if_neg hv] at hchange
          exact absurd rfl hchange

set_option maxRecDepth 400000 in
/-- Counterexample to C1 as stated: the engine line bestmove a9a6 decodes to
the move (0,0)->(3,0), which the Rule Engine rejects (Blue rook onto Blue
soldier), yet the handler applies it: board and history of the fresh game
change. -/
theorem C1_counterexample :
    isValidMove startedState.board (0, 0) (3, 0) startedState.turn = .ok false
    ∧ (onEngineLine startedState "bestmove a9a6").1.board ≠ startedState.board
    ∧ (onEngineLine startedState "bestmove a9a6").1.history ≠ startedState.history := by
  refine ⟨by decide, by decide, by decide⟩

set_option maxRecDepth 400000 in
/-- Witness for C1: clicking (4,0) with the soldier on (3,0) selected changes
the board, so the theorem yields the validated pair. -/
theorem C1_witness :
    ∃ sel, clickState1.selected = some sel
      ∧ isValidMove clickState1.board (sel.1, sel.2) (4, 0) clickState1.turn = .ok true :=
  C1_human_validated clickState1 4 0 (by decide)
